import Mathlib

/-!
Verification development for the cloud-viewer job lifecycle engine.

The definitions below are a shallow embedding of the Python sources:
  * `apps/api/storage/db.py`   (`DatabaseManager` job methods)
  * `apps/api/storage/az.py`   (`AzureStorageManager` blob methods)
  * `apps/api/routes/jobs.py`  (the job-cancel route)
  * `apps/api/worker.py`       (`JobWorker`: pipelines, checkpoints, cleanup)
  * `apps/api/utils/potree.py` (`PotreeConverter.convert`)

MongoDB's job collection is modelled as a `List Job`; Azure blob storage as a
list of blob names; local scratch files as a list of paths.  Timestamps are
naturals drawn from a logical clock.  The worker pipelines are modelled as
instruction sequences executed by a small-step interpreter whose environment
may run the store-level `cancel_job` just before any instruction (the
interleaving allowed by the single-threaded-route / worker-thread split).
-/

namespace CloudViewer

/-- Job `status` values (db.py stores them as strings:
"pending" / "processing" / "completed" / "failed" / "cancelled"). -/
inductive Status
  | pending
  | processing
  | completed
  | failed
  | cancelled
deriving DecidableEq, Repr

/-- Position of a status along the documented lifecycle
`pending → processing → terminal`. -/
def statusRank : Status → Nat
  | Status.pending => 0
  | Status.processing => 1
  | Status.completed => 2
  | Status.failed => 2
  | Status.cancelled => 2

/-- Terminal statuses per the state machine. -/
def Status.isTerminal : Status → Bool
  | Status.completed => true
  | Status.failed => true
  | Status.cancelled => true
  | _ => false

/-- One observed status write `a` followed by `b` is a forward move when it
repeats the same status or strictly advances along the lifecycle; in
particular a terminal status may never be followed by a different status. -/
def stepForward (a b : Status) : Bool :=
  a == b || decide (statusRank a < statusRank b)

/-- A whole observed sequence of status values moves only forward. -/
def forwardOnly : List Status → Bool
  | [] => true
  | [_] => true
  | a :: b :: rest => stepForward a b && forwardOnly (b :: rest)

/-- A job document, with the fields the sources read and write
(`models.Job` usage in worker.py / db.py / routes/jobs.py; spec section 3). -/
structure Job where
  id : String
  project_id : String
  type : String
  status : Status
  cancelled : Bool
  file_path : Option String
  azure_path : Option String
  current_step : Option String
  progress_message : Option String
  error_message : Option String
  created_at : Nat
  updated_at : Nat
  completed_at : Option Nat
deriving DecidableEq, Repr

/-- `find_one({'_id': job_id})` on the job collection. -/
def findJob (db : List Job) (id : String) : Option Job :=
  db.find? (fun j => j.id == id)

/-- The keyword arguments `DatabaseManager.update_job_status` recognises
(db.py lines 277-284); `retry_count` is omitted since no caller in the
sources passes it. -/
structure Kwargs where
  current_step : Option String := none
  progress_message : Option String := none
  error_message : Option String := none
deriving DecidableEq, Repr

/-- The `$set` document built by `update_job_status` applied to one job:
always sets `status` and `updated_at`, merges the optional fields, and sets
`completed_at` only when the new status is `completed` or `failed`
(db.py lines 271-293). -/
def applyUpdate (now : Nat) (st : Status) (k : Kwargs) (j : Job) : Job :=
  let j1 := { j with status := st, updated_at := now }
  let j2 := match k.current_step with
    | some s => { j1 with current_step := some s }
    | none => j1
  let j3 := match k.progress_message with
    | some s => { j2 with progress_message := some s }
    | none => j2
  let j4 := match k.error_message with
    | some s => { j3 with error_message := some s }
    | none => j3
  if st = Status.completed ∨ st = Status.failed then
    { j4 with completed_at := some now }
  else j4

/-- `DatabaseManager.update_job_status` (db.py lines 262-294). -/
def update_job_status (db : List Job) (id : String) (st : Status) (k : Kwargs)
    (now : Nat) : List Job :=
  db.map (fun j => if j.id == id then applyUpdate now st k j else j)

/-- The `$set` document of `DatabaseManager.cancel_job` applied to one job
(db.py lines 350-355). -/
def applyCancel (t : Nat) (j : Job) : Job :=
  { j with cancelled := true, status := Status.cancelled,
           updated_at := t, completed_at := some t }

/-- `DatabaseManager.cancel_job` (db.py lines 329-367): `False` when the job
is missing or the update modified nothing, otherwise sets the cancellation
fields and returns `True`. -/
def cancel_job (db : List Job) (id : String) (t : Nat) : Bool × List Job :=
  match findJob db id with
  | none => (false, db)
  | some _ =>
      let db2 := db.map (fun j => if j.id == id then applyCancel t j else j)
      (decide (db2 ≠ db), db2)

/-- `DatabaseManager.is_job_cancelled` (db.py lines 370-391): projection read
of the `cancelled` flag, `false` when the job is missing. -/
def is_job_cancelled (db : List Job) (id : String) : Bool :=
  match findJob db id with
  | none => false
  | some j => j.cancelled

/-- Accumulator pass behind `JobWorker.get_next_job`'s
`find_one_and_update({"status": "pending"}, ..., sort=[("created_at", 1)])`:
scan the collection keeping the pending job with the smallest `created_at`
(first such document on ties). -/
def oldestPendingAux : Option Job → List Job → Option Job
  | acc, [] => acc
  | acc, j :: rest =>
      if j.status = Status.pending then
        match acc with
        | none => oldestPendingAux (some j) rest
        | some b =>
            oldestPendingAux (some (if j.created_at < b.created_at then j else b)) rest
      else oldestPendingAux acc rest

/-- The document selected by `get_next_job`'s atomic query. -/
def oldestPending (db : List Job) : Option Job :=
  oldestPendingAux none db

/-- `JobWorker.get_next_job` (worker.py lines 148-182): atomically select the
oldest pending job, set `status` to `processing` and refresh `updated_at` in
the same operation, and return the updated document (`return_document=True`);
`none` when no pending job exists. -/
def get_next_job (db : List Job) (now : Nat) : Option Job × List Job :=
  match oldestPending db with
  | none => (none, db)
  | some j =>
      let j2 := { j with status := Status.processing, updated_at := now }
      (some j2, db.map (fun x => if x.id == j.id then j2 else x))

/-- Outcome of the `POST /jobs/job_id/cancel` route: a success payload or an
HTTPException with a status code and detail string. -/
inductive RouteResult
  | ok (job_id : String) (project_id : String) (previous : Status) (cancelled_at : Nat)
  | err (code : Nat) (detail : String)
deriving DecidableEq, Repr

/-- The `cancel_job` route handler (routes/jobs.py lines 282-376): 404 when
the job is missing, 409 when its status is `completed`, `failed` or
`cancelled`, otherwise `DatabaseManager.cancel_job` runs and the route
returns a success payload (500 when that store call reports failure).
Returns the response together with the job collection after the call. -/
def cancelRoute (db : List Job) (id : String) (now : Nat) :
    RouteResult × List Job :=
  match findJob db id with
  | none => (RouteResult.err 404 ("Job with id " ++ id ++ " not found"), db)
  | some j =>
      if j.status = Status.completed then
        (RouteResult.err 409 "Cannot cancel completed job", db)
      else if j.status = Status.failed then
        (RouteResult.err 409 "Cannot cancel failed job", db)
      else if j.status = Status.cancelled then
        (RouteResult.err 409 "Job already cancelled", db)
      else
        match cancel_job db id now with
        | (true, db2) => (RouteResult.ok id j.project_id j.status now, db2)
        | (false, db2) => (RouteResult.err 500 "Failed to cancel job", db2)

/-- State threaded through a worker pipeline run: the job collection, the set
of project ids that exist, remote blob names, local scratch paths, the log of
executed external side effects, the sequence of values the job's `status`
field has taken, and a logical clock supplying `datetime.utcnow()`. -/
structure WState where
  db : List Job
  projects : List String
  blobs : List String
  localFiles : List String
  effects : List String
  statusHist : List Status
  time : Nat
deriving DecidableEq, Repr

/-- A worker-side `update_job_status` call: one database write at the current
clock, recorded in the status history. -/
def writeStatus (id : String) (st : Status) (k : Kwargs) (s : WState) : WState :=
  { s with db := update_job_status s.db id st k s.time,
           statusHist := s.statusHist ++ [st],
           time := s.time + 1 }

/-- The route-side `DatabaseManager.cancel_job` running interleaved with the
worker (its `status = cancelled` write is recorded in the history). -/
def extCancel (id : String) (s : WState) : WState :=
  match findJob s.db id with
  | none => s
  | some _ =>
      { s with db := (cancel_job s.db id s.time).2,
               statusHist := s.statusHist ++ [Status.cancelled],
               time := s.time + 1 }

/-- `AzureStorageManager.delete_blob` (az.py lines 145-147). -/
def deleteBlob (name : String) (bs : List String) : List String :=
  bs.filter (fun b => !(b == name))

/-- `os.remove` on a local scratch path. -/
def deleteLocal (p : String) (fs : List String) : List String :=
  fs.filter (fun f => !(f == p))

/-- Character-list prefix test (used instead of the opaque `String`
primitives so that all proofs reduce in the kernel). -/
def charListIsPre : List Char → List Char → Bool
  | [], _ => true
  | _ :: _, [] => false
  | a :: as, b :: bs => a == b && charListIsPre as bs

/-- `needle` occurs contiguously inside the second list. -/
def charListIsInf (needle : List Char) : List Char → Bool
  | [] => charListIsPre needle []
  | b :: bs => charListIsPre needle (b :: bs) || charListIsInf needle bs

/-- `p` is a prefix of `s` (Python `str.startswith` / blob
`name_starts_with`). -/
def strIsPre (p s : String) : Bool :=
  charListIsPre p.toList s.toList

/-- `needle in hay` for strings (contiguous substring). -/
def strContainsSub (hay needle : String) : Bool :=
  charListIsInf needle.toList hay.toList

/-- `JobWorker.cleanup_temp_files` (worker.py lines 1197-1226): delete the
local temp file and the Azure job blob, each guarded so a missing path is
skipped. -/
def cleanup_temp_files (j : Job) (s : WState) : WState :=
  let s1 := match j.file_path with
    | some p => { s with localFiles := deleteLocal p s.localFiles }
    | none => s
  match j.azure_path with
  | some a => { s1 with blobs := deleteBlob a s1.blobs }
  | none => s1

/-- The partial-output deletion block of `JobWorker._cleanup_cancelled_job`
(worker.py lines 601-623) as it executes: the block calls
`self.db.az.list_blobs(prefix=...)`, but `AzureStorageManager`
(storage/az.py) defines no `list_blobs` method, so the call raises
`AttributeError`, which the surrounding `try/except` catches and logs
("Failed to list blobs for cleanup"); the blob store is left unchanged. -/
def deletePartialOutputs (projectId : String) (s : WState) : WState :=
  if s.projects.contains projectId then s else s

/-- The same block as written (list every blob under `project.id ++ "/"` and
delete each one) — the behavior worker.py lines 606-619 spell out, reachable
only if the storage manager had a `list_blobs` method. -/
def deletePartialOutputsAsWritten (projectId : String) (s : WState) : WState :=
  if s.projects.contains projectId then
    let pre := projectId ++ "/"
    let listed := s.blobs.filter (fun b => strIsPre pre b)
    { s with blobs := listed.foldl (fun acc b => deleteBlob b acc) s.blobs }
  else s

/-- `JobWorker._cleanup_cancelled_job` (worker.py lines 567-633): delete the
local temp file, the Azure job blob, attempt the partial-output deletion, and
delete the local converter output directory when given. -/
def cleanup_cancelled_job (j : Job) (outputDir : Option String) (s : WState) :
    WState :=
  let s1 := match j.file_path with
    | some p => { s with localFiles := deleteLocal p s.localFiles }
    | none => s
  let s2 := match j.azure_path with
    | some a => { s1 with blobs := deleteBlob a s1.blobs }
    | none => s1
  let s3 := deletePartialOutputs j.project_id s2
  match outputDir with
  | some d => { s3 with localFiles := deleteLocal d s3.localFiles }
  | none => s3

/-- `JobWorker.mark_failed` (worker.py lines 1178-1195). -/
def mark_failed (j : Job) (msg : String) (s : WState) : WState :=
  writeStatus j.id Status.failed
    { error_message := some msg, progress_message := some "Processing failed" } s

/-- `JobWorker._handle_cancellation` (worker.py lines 883-912): cleanup, then
write status `cancelled`. -/
def handle_cancellation (j : Job) (outputDir : Option String) (s : WState) :
    WState :=
  let s1 := cleanup_cancelled_job j outputDir s
  writeStatus j.id Status.cancelled
    { progress_message := some "Job cancelled by user" } s1

/-- The generic `except` branch of `JobWorker.process_job` (worker.py lines
1110-1123): `mark_failed`, `cleanup_temp_files`, then remove the local
converter output directory. -/
def handle_pc_failure (j : Job) (msg : String) (outputDir : Option String)
    (s : WState) : WState :=
  let s1 := mark_failed j msg s
  let s2 := cleanup_temp_files j s1
  match outputDir with
  | some d => { s2 with localFiles := deleteLocal d s2.localFiles }
  | none => s2

/-- `AzureStorageManager.delete_job_file` (az.py lines 164-176): deletes the
blob `jobs/job_id.laz` (always the `.laz` name, whatever the job uploaded). -/
def delete_job_file (jobId : String) (s : WState) : WState :=
  { s with blobs := deleteBlob ("jobs/" ++ jobId ++ ".laz") s.blobs }

/-- The world-file extensions probed by the ortho code (worker.py line 246). -/
def worldExtensions : List String :=
  [".jgw", ".pgw", ".wld", ".jpgw", ".pngw"]

/-- `JobWorker._cleanup_ortho_files` (worker.py lines 635-677): delete the
given local paths, the Azure job file, and any world-file blobs. -/
def cleanup_ortho_files (jobId : String) (paths : List String) (s : WState) :
    WState :=
  let s1 := paths.foldl
    (fun st p => { st with localFiles := deleteLocal p st.localFiles }) s
  let s2 := delete_job_file jobId s1
  worldExtensions.foldl
    (fun st e => { st with blobs := deleteBlob ("jobs/" ++ jobId ++ e) st.blobs })
    s2

/-- `shutil.rmtree` over the glob `/tmp/ortho_job_*` temp directory. -/
def deleteTempDirGlob (pre : String) (s : WState) : WState :=
  { s with localFiles := s.localFiles.filter (fun f => ! strIsPre pre f) }

/-- `JobWorker._handle_ortho_cancellation` (worker.py lines 679-723). -/
def handle_ortho_cancellation (j : Job) (s : WState) : WState :=
  let s1 := deleteTempDirGlob ("/tmp/ortho_" ++ j.id ++ "_") s
  let s2 := delete_job_file j.id s1
  writeStatus j.id Status.cancelled
    { progress_message := some "Job cancelled by user" } s2

/-- `JobWorker._handle_ortho_error` (worker.py lines 725-772). -/
def handle_ortho_error (j : Job) (msg : String) (s : WState) : WState :=
  let s1 := deleteTempDirGlob ("/tmp/ortho_" ++ j.id ++ "_") s
  let s2 := delete_job_file j.id s1
  writeStatus j.id Status.failed
    { error_message := some msg, progress_message := some "Ortho processing failed" } s2

/-- One step of a pipeline body:
`check` is `_check_cancellation`; `upd` is an `update_job_status` progress
or terminal write; `eff` is a step with an external side effect (download,
transform, upload, parent update), logged by name; `thumb` is the designated
non-fatal preview step (its effect happens only when preview generation
succeeds, and failure merely continues); `convert` is the external
conversion invocation (failure jumps to the pipeline's error handler);
`finalize` is the trailing scratch cleanup after the `completed` write. -/
inductive Instr
  | check
  | upd (st : Status) (k : Kwargs)
  | eff (name : String)
  | thumb (name : String)
  | convert (name : String)
  | finalize
deriving Repr

/-- Parameters of one pipeline run: the job id, whether the preview step and
the external conversion succeed, the error message the conversion raises on
failure, the pipeline's cancellation / failure / trailing-cleanup handlers,
and the interleaving point (`cancelAt = some n` runs the route-side
`cancel_job` just before instruction `n`). -/
structure RunCtx where
  jobId : String
  thumbOk : Bool
  convOk : Bool
  convErr : String
  onCancel : WState → WState
  onFail : String → WState → WState
  onDone : WState → WState
  cancelAt : Option Nat

/-- Interpreter for a pipeline body.  `check` raises `CancellationException`
when `is_job_cancelled` holds, which the pipeline's `except` branch turns
into the cancellation handler; `convert` failure raises into the error
handler; all other instructions fall through sequentially. -/
def runProg (c : RunCtx) : List Instr → Nat → WState → WState
  | [], _, s => s
  | i :: rest, n, s =>
      let s1 := if c.cancelAt = some n then extCancel c.jobId s else s
      match i with
      | Instr.check =>
          if is_job_cancelled s1.db c.jobId then c.onCancel s1
          else runProg c rest (n + 1) s1
      | Instr.upd st k => runProg c rest (n + 1) (writeStatus c.jobId st k s1)
      | Instr.eff e => runProg c rest (n + 1)
          { s1 with effects := s1.effects ++ [e] }
      | Instr.thumb e => runProg c rest (n + 1)
          (if c.thumbOk then { s1 with effects := s1.effects ++ [e] } else s1)
      | Instr.convert e =>
          if c.convOk then runProg c rest (n + 1)
            { s1 with effects := s1.effects ++ [e] }
          else c.onFail c.convErr s1
      | Instr.finalize => runProg c rest (n + 1) (c.onDone s1)

/-- The point-cloud body of `JobWorker.process_job` (worker.py lines
948-1123), claimed job in hand: checkpoint, metadata write + extraction,
checkpoint, thumbnail write + non-fatal generate-and-upload, parent
metadata/thumbnail update, checkpoint, conversion write + PotreeConverter,
checkpoint, upload write + tree upload, parent cloud-URL update, `completed`
write, trailing scratch cleanup. -/
def pcProg : List Instr := [
  Instr.check,
  Instr.upd Status.processing
    { current_step := some "metadata",
      progress_message := some "Extracting point cloud metadata..." },
  Instr.eff "extract_metadata",
  Instr.check,
  Instr.upd Status.processing
    { current_step := some "thumbnail",
      progress_message := some "Generating thumbnail..." },
  Instr.thumb "thumbnail_upload",
  Instr.eff "update_project_metadata",
  Instr.check,
  Instr.upd Status.processing
    { current_step := some "conversion",
      progress_message := some "Converting to Potree format..." },
  Instr.convert "potree_convert",
  Instr.check,
  Instr.upd Status.processing
    { current_step := some "upload",
      progress_message := some "Uploading Potree files to Azure..." },
  Instr.eff "upload_potree",
  Instr.eff "update_project_cloud",
  Instr.upd Status.completed
    { current_step := some "completed",
      progress_message := some "Processing completed successfully" },
  Instr.finalize]

/-- The body of `JobWorker.process_ortho_job` (worker.py lines 774-881):
status write, step-1 download, then the first checkpoint, and so on;
the `completed` write and the trailing cleanup close the run. -/
def orthoProg : List Instr := [
  Instr.upd Status.processing
    { progress_message := some "Starting ortho processing" },
  Instr.eff "download_source",
  Instr.check,
  Instr.upd Status.processing { progress_message := some "Validating file" },
  Instr.eff "validate_geotiff",
  Instr.check,
  Instr.upd Status.processing
    { progress_message := some "Converting to PNG overlay" },
  Instr.convert "png_overlay_convert",
  Instr.check,
  Instr.upd Status.processing
    { progress_message := some "Generating thumbnail" },
  Instr.thumb "thumbnail_generate",
  Instr.check,
  Instr.upd Status.processing { progress_message := some "Uploading to Azure" },
  Instr.eff "upload_overlay",
  Instr.eff "update_project_ortho",
  Instr.upd Status.completed
    { progress_message := some "Ortho conversion completed successfully" },
  Instr.finalize]

/-- A freshly claimed point-cloud job (status already `processing` from
`get_next_job`). -/
def pcJob : Job :=
  { id := "j1", project_id := "p1", type := "potree_conversion",
    status := Status.processing, cancelled := false,
    file_path := some "/tmp/j1.laz", azure_path := some "jobs/j1.laz",
    current_step := none, progress_message := none, error_message := none,
    created_at := 0, updated_at := 1, completed_at := none }

/-- Worker state at the start of the point-cloud run: the claimed job, its
project, the uploaded source blob, one previously persisted derived artifact
under the project's prefix, and the local temp file. -/
def pcState0 : WState :=
  { db := [pcJob], projects := ["p1"],
    blobs := ["jobs/j1.laz", "p1/thumbnail.png"],
    localFiles := ["/tmp/j1.laz"],
    effects := [], statusHist := [Status.processing], time := 2 }

/-- The point-cloud pipeline run, with the handlers `process_job` installs. -/
def runPC (thumbOk convOk : Bool) (convErr : String) (cancelAt : Option Nat) :
    WState :=
  runProg
    { jobId := pcJob.id, thumbOk := thumbOk, convOk := convOk,
      convErr := convErr,
      onCancel := handle_cancellation pcJob (some "/tmp/potree_out"),
      onFail := fun m s => handle_pc_failure pcJob m (some "/tmp/potree_out") s,
      onDone := fun s =>
        let s1 := cleanup_temp_files pcJob s
        { s1 with localFiles := deleteLocal "/tmp/potree_out" s1.localFiles },
      cancelAt := cancelAt }
    pcProg 0 pcState0

/-- A freshly claimed ortho job. -/
def orthoJob : Job :=
  { id := "j2", project_id := "p2", type := "ortho_conversion",
    status := Status.processing, cancelled := false,
    file_path := none, azure_path := some "jobs/j2.tif",
    current_step := none, progress_message := none, error_message := none,
    created_at := 0, updated_at := 1, completed_at := none }

/-- Worker state at the start of the ortho run. -/
def orthoState0 : WState :=
  { db := [orthoJob], projects := ["p2"],
    blobs := ["jobs/j2.tif"],
    localFiles := [],
    effects := [], statusHist := [Status.processing], time := 2 }

/-- The local paths `process_ortho_job` passes to `_cleanup_ortho_files`. -/
def orthoLocalPaths : List String :=
  ["/tmp/ortho_j2_x/j2.tif", "/tmp/ortho_j2_x/j2_overlay.png",
   "/tmp/ortho_j2_x/j2_overlay_thumbnail.png"]

/-- The ortho pipeline run, with the handlers `process_ortho_job` installs
(each handler is followed by `_cleanup_ortho_files`, as in the source). -/
def runOrtho (thumbOk convOk : Bool) (convErr : String)
    (cancelAt : Option Nat) : WState :=
  runProg
    { jobId := orthoJob.id, thumbOk := thumbOk, convOk := convOk,
      convErr := convErr,
      onCancel := fun s =>
        cleanup_ortho_files orthoJob.id orthoLocalPaths
          (handle_ortho_cancellation orthoJob s),
      onFail := fun m s =>
        cleanup_ortho_files orthoJob.id orthoLocalPaths
          (handle_ortho_error orthoJob m s),
      onDone := cleanup_ortho_files orthoJob.id orthoLocalPaths,
      cancelAt := cancelAt }
    orthoProg 0 orthoState0

/-- The status of a job in a final worker state. -/
def finalStatus (s : WState) (id : String) : Option Status :=
  (findJob s.db id).map Job.status

/-- The `error_message` of a job in a final worker state. -/
def finalError (s : WState) (id : String) : Option String :=
  match findJob s.db id with
  | none => none
  | some j => j.error_message

/-- The `cancelled` flag of a job in a final worker state. -/
def finalCancelled (s : WState) (id : String) : Bool :=
  is_job_cancelled s.db id

/-- Exit status and captured output of one external tool invocation.
`PotreeConverter.convert` starts the process with
`stderr=subprocess.STDOUT` (potree.py lines 57-63), so the lines here are
the merged stdout+stderr stream; process exit codes are non-negative. -/
structure ToolResult where
  returncode : Nat
  outputLines : List String
deriving DecidableEq, Repr

/-- Python's `subprocess.CalledProcessError`: command, exit code, captured
output. -/
structure CalledProcessError where
  returncode : Nat
  cmd : List String
  output : String
deriving DecidableEq, Repr

/-- Python `repr` of a string (as it appears inside `str(list)`). -/
def pyStrRepr (s : String) : String := "'" ++ s ++ "'"

/-- Python `str` of a list of strings. -/
def pyListRepr (l : List String) : String :=
  "[" ++ String.intercalate ", " (l.map pyStrRepr) ++ "]"

/-- `str(e)` for a `CalledProcessError` with a non-negative exit code
(CPython: "Command '%s' returned non-zero exit status %d."); note it does
not include `e.output`. -/
def calledProcessErrorStr (e : CalledProcessError) : String :=
  "Command '" ++ pyListRepr e.cmd ++ "' returned non-zero exit status "
    ++ toString e.returncode ++ "."

/-- The argument vector `PotreeConverter.convert` builds
(potree.py lines 39-48). -/
def potreeArgs (binPath inputPath outputDir proj4 : String) : List String :=
  [binPath, inputPath, "-o", outputDir, "--overwrite", "--projection", proj4]

/-- `PotreeConverter.convert` (potree.py lines 18-100): on a non-zero exit
code it raises `CalledProcessError(returncode, args, output=joined lines)`;
otherwise it returns the output directory. -/
def potree_convert (binPath inputPath outputDir proj4 : String)
    (res : ToolResult) : Except CalledProcessError String :=
  if res.returncode ≠ 0 then
    Except.error
      { returncode := res.returncode,
        cmd := potreeArgs binPath inputPath outputDir proj4,
        output := String.intercalate "\n" res.outputLines }
  else Except.ok outputDir

/-- The point-cloud run driven by an actual tool invocation: on conversion
failure, `process_job`'s `except` branch calls `mark_failed(job, str(e))`
(worker.py lines 1110-1112). -/
def runPCTool (res : ToolResult) (binPath inputPath outputDir proj4 : String) :
    WState :=
  match potree_convert binPath inputPath outputDir proj4 res with
  | Except.ok _ => runPC true true "" none
  | Except.error e => runPC true false (calledProcessErrorStr e) none

/-- The job's final status is anything other than `completed`. -/
def notCompleted (s : WState) (id : String) : Bool :=
  match finalStatus s id with
  | some Status.completed => false
  | _ => true

/-- Whether a status value was ever written during the run. -/
def histWrote (s : WState) (st : Status) : Bool :=
  s.statusHist.any (fun x => x == st)

/-- A worker state holding one previously persisted artifact
(`p1/thumbnail.png`) and one partially uploaded derived artifact
(`p1/metadata.json`) under the parent project's prefix, next to the job's
scratch blob. -/
def partialState : WState :=
  { pcState0 with blobs := ["jobs/j1.laz", "p1/thumbnail.png", "p1/metadata.json"] }

/-- A pending job as the cancel route finds it. -/
def demoPend : Job := { pcJob with id := "jw", status := Status.pending }

/-- Pending job created later than `demoB`. -/
def demoA : Job := { pcJob with id := "a", status := Status.pending, created_at := 5 }

/-- The oldest pending job of the demo queue. -/
def demoB : Job := { pcJob with id := "b", status := Status.pending, created_at := 3 }

/-- An older job that is already `processing`, hence not eligible. -/
def demoC : Job := { pcJob with id := "c", status := Status.processing, created_at := 1 }

/-- A small job collection for exercising `get_next_job`. -/
def demoQueue : List Job := [demoA, demoB, demoC]

/-- The document `get_next_job` returns on `demoQueue` at time 9. -/
def demoClaimed : Job :=
  { demoB with status := Status.processing, updated_at := 9 }

/-- A conversion-tool run that exits 1 with one diagnostic line on the
merged output stream. -/
def demoToolFail : ToolResult :=
  { returncode := 1, outputLines := ["ERROR: could not open file"] }

/-- The point-cloud run in which the conversion tool fails as
`demoToolFail`. -/
def demoFailRun : WState :=
  runPCTool demoToolFail "/app/PotreeConverter" "/tmp/j1.laz" "/tmp/potree_out"
    "+proj=utm"

/-- Claim C1 (counterexample). The claim "status only moves forward along
pending → processing → terminal, and a terminal record is never mutated" is
false on the code: run the point-cloud pipeline and let the cancel route's
`cancel_job` land between the second checkpoint and the next progress write
(interleaving point 4).  The job's status sequence is
processing, processing, cancelled, processing, cancelled — the worker's
unguarded `update_job_status` write moves the job out of the terminal
`cancelled` status back to `processing`. -/
theorem status_regression_after_interleaved_cancel :
    forwardOnly (runPC true true "" (some 4)).statusHist = false
    ∧ (runPC true true "" (some 4)).statusHist
        = [Status.processing, Status.processing, Status.cancelled,
           Status.processing, Status.cancelled] := by decide

/-- Claim C1 (amended). In runs of either pipeline with no interleaved
`cancel_job` — for every combination of preview success and conversion
success — the job's status sequence only moves forward along
pending → processing → terminal and no write follows a terminal write;
the forward-only invariant fails only under an interleaved cancellation,
because `update_job_status` applies its `$set` with no terminal-status
guard. -/
theorem status_forward_only_without_cancel :
    ∀ t cv : Bool,
      forwardOnly (runPC t cv "" none).statusHist = true
      ∧ forwardOnly (runOrtho t cv "" none).statusHist = true := by decide

/-- Claim C2 (counterexample). A job cancelled after the pipeline's last
checkpoint: `cancel_job` lands at interleaving point 11 (after the final
`check` at index 10), the remaining writes run unguarded, and the run ends
by writing `completed` on a job whose `cancelled` flag is true — refuting
"a job observed to be cancelled never ends `completed`". -/
theorem late_cancel_ends_completed :
    finalCancelled (runPC true true "" (some 11)) "j1" = true
    ∧ finalStatus (runPC true true "" (some 11)) "j1" = some Status.completed
    := by decide

/-- Claim C2 (amended). In both pipelines, if the `cancelled` flag is set
at or before the run's last cancellation checkpoint — interleaving points 0
through 10 for the point-cloud run, 0 through 11 for the ortho run — the
run never ends `completed` (whatever the preview and conversion outcomes),
and when the steps succeed it ends in status `cancelled`; only a
cancellation landing after the last checkpoint can be followed by a
`completed` write. -/
theorem cancel_before_last_checkpoint_never_completed :
    ((∀ (t cv : Bool) (c : Fin 11),
        notCompleted (runPC t cv "" (some c.val)) "j1" = true)
      ∧ (∀ (t : Bool) (c : Fin 11),
        finalStatus (runPC t true "" (some c.val)) "j1"
          = some Status.cancelled))
    ∧ ((∀ (t cv : Bool) (c : Fin 12),
        notCompleted (runOrtho t cv "" (some c.val)) "j2" = true)
      ∧ (∀ (t : Bool) (c : Fin 12),
        finalStatus (runOrtho t true "" (some c.val)) "j2"
          = some Status.cancelled)) := by decide

/-- Claim C3 (code bug). `DatabaseManager.update_job_status` sets
`completed_at` only when the new status is `completed` or `failed`
(db.py lines 286-288), so the worker's cancellation path — which
`_handle_cancellation` documents as "updates the job status to 'cancelled'
with completed_at timestamp" — leaves `completed_at` untouched: the
cancelled write below keeps `completed_at = none` while the `completed` and
`failed` writes stamp it. -/
theorem worker_cancel_write_omits_completed_at :
    (findJob (update_job_status [pcJob] "j1" Status.cancelled
        { progress_message := some "Job cancelled by user" } 9) "j1").map
        Job.completed_at = some none
    ∧ (findJob (update_job_status [pcJob] "j1" Status.cancelled
        { progress_message := some "Job cancelled by user" } 9) "j1").map
        Job.status = some Status.cancelled
    ∧ (findJob (update_job_status [pcJob] "j1" Status.completed {} 9) "j1").map
        Job.completed_at = some (some 9)
    ∧ (findJob (update_job_status [pcJob] "j1" Status.failed {} 9) "j1").map
        Job.completed_at = some (some 9) := by decide

/-- Claim C6 (counterexample). An ortho job claimed with its `cancelled`
flag already set still executes step 1's download: `process_ortho_job`'s
first `_check_cancellation` call comes only after `_download_ortho_file`,
so the run's side-effect log is `["download_source"]` even though the first
checkpoint then aborts through the cancellation path. -/
theorem ortho_download_before_first_checkpoint :
    (runOrtho true true "" (some 0)).effects = ["download_source"]
    ∧ finalStatus (runOrtho true true "" (some 0)) "j2" = some Status.cancelled
    := by decide

/-- Claim C6 (amended). For a claimed job whose `cancelled` flag is already
set: the point-cloud pipeline's first checkpoint runs at the start of the
run, detects it, and the run terminates through the cancellation path with
no side-effecting step executed; the ortho pipeline checks only after step
1's download, so the download side effect executes before its first
checkpoint aborts the run. -/
theorem precancelled_claim_behavior :
    ∀ t cv : Bool,
      ((runPC t cv "" (some 0)).effects = []
        ∧ finalStatus (runPC t cv "" (some 0)) "j1" = some Status.cancelled)
      ∧ ((runOrtho t cv "" (some 0)).effects = ["download_source"]
        ∧ finalStatus (runOrtho t cv "" (some 0)) "j2" = some Status.cancelled)
    := by decide

/-- Claim C8 (counterexample). The claimed common cleanup-action set
includes "delete partially-uploaded derived artifacts under the parent's
namespace", but neither path deletes them: starting from a state holding
the derived artifact `p1/metadata.json`, the blob survives both the
cancellation cleanup (`_cleanup_cancelled_job` — its prefix-deletion block
fails on the missing `list_blobs` method and is swallowed) and the failure
cleanup (`cleanup_temp_files` — which never touches the prefix at all). -/
theorem derived_artifacts_survive_both_cleanups :
    "p1/metadata.json"
        ∈ (cleanup_cancelled_job pcJob (some "/tmp/potree_out") partialState).blobs
    ∧ "p1/metadata.json" ∈ (cleanup_temp_files pcJob partialState).blobs := by
  decide

/-- Claim C9. A preview/thumbnail failure never fails the job: with the
preview step failing (and equally with it succeeding) both pipelines still
end `completed`, no `failed` status is ever written, `error_message` stays
absent, and the pipeline continues into the later upload steps. -/
theorem thumbnail_failure_is_nonfatal :
    ∀ t : Bool,
      finalStatus (runPC t true "" none) "j1" = some Status.completed
      ∧ histWrote (runPC t true "" none) Status.failed = false
      ∧ finalError (runPC t true "" none) "j1" = none
      ∧ finalStatus (runOrtho t true "" none) "j2" = some Status.completed
      ∧ "upload_potree" ∈ (runPC false true "" none).effects
      ∧ "upload_overlay" ∈ (runOrtho false true "" none).effects := by decide

/-- Claim C10 (code bug). The partial-output deletion in
`_cleanup_cancelled_job` never runs: `self.db.az.list_blobs` does not exist
on `AzureStorageManager`, the `AttributeError` is caught and only logged, so
on the failing input (cancelled job `j1`, project `p1` present, blobs
`p1/thumbnail.png` and `p1/metadata.json` under the prefix) the cleanup
deletes only the scratch blob `jobs/j1.laz` and leaves every `p1/` blob in
place — whereas the loop as written (and as the claim describes) would
delete every blob under `p1/`, previously persisted outputs included. -/
theorem cancel_cleanup_prefix_deletion_never_runs :
    (cleanup_cancelled_job pcJob (some "/tmp/potree_out") partialState).blobs
        = ["p1/thumbnail.png", "p1/metadata.json"]
    ∧ (deletePartialOutputsAsWritten "p1" partialState).blobs = ["jobs/j1.laz"]
    := by decide

/-- Claim C4 (counterexample). Cancel a pending job through the route, then
cancel it again: the second call does not return a non-error
"already cancelled" outcome — it raises a 409 conflict
("Job already cancelled"); the record is left unchanged. -/
theorem second_cancel_is_error_outcome :
    (cancelRoute (cancelRoute [demoPend] "jw" 5).2 "jw" 6).1
        = RouteResult.err 409 "Job already cancelled"
    ∧ (cancelRoute (cancelRoute [demoPend] "jw" 5).2 "jw" 6).2
        = (cancelRoute [demoPend] "jw" 5).2 := by decide

/-- Claim C7 (counterexample). The conversion tool exits 1 with the
diagnostic "ERROR: could not open file" on its captured (merged) output
stream; the job ends `failed`, but `error_message` is the
`CalledProcessError` summary string — command and exit code — and does not
contain the tool's output. -/
theorem potree_error_message_lacks_tool_output :
    finalStatus demoFailRun "j1" = some Status.failed
    ∧ finalError demoFailRun "j1" = some (calledProcessErrorStr
        { returncode := 1,
          cmd := potreeArgs "/app/PotreeConverter" "/tmp/j1.laz"
            "/tmp/potree_out" "+proj=utm",
          output := "ERROR: could not open file" })
    ∧ (finalError demoFailRun "j1").map
        (fun m => strContainsSub m "ERROR: could not open file")
        = some false := by decide

/-- On the conversion-failure path the job's final status is `failed`,
whatever the error string. -/
theorem runPC_convFail_status (msg : String) :
    finalStatus (runPC true false msg none) "j1" = some Status.failed := rfl

/-- On the conversion-failure path `mark_failed` stores exactly the message
it was handed. -/
theorem runPC_convFail_error (msg : String) :
    finalError (runPC true false msg none) "j1" = some msg := rfl

/-- Claim C7 (amended). When the conversion tool exits non-zero the job
ends `failed`, and `error_message` is the string form of the
`CalledProcessError` — the command vector and exit code; the tool's
diagnostic stream (stderr merged into stdout by `Popen(...,
stderr=subprocess.STDOUT)`) is captured in the error's `output` attribute
but is not copied into `error_message`. -/
theorem potree_nonzero_exit_marks_failed (res : ToolResult)
    (bp ip od pr : String) (h : res.returncode ≠ 0) :
    potree_convert bp ip od pr res = Except.error
      { returncode := res.returncode, cmd := potreeArgs bp ip od pr,
        output := String.intercalate "\n" res.outputLines }
    ∧ finalStatus (runPCTool res bp ip od pr) "j1" = some Status.failed
    ∧ finalError (runPCTool res bp ip od pr) "j1"
        = some (calledProcessErrorStr
            { returncode := res.returncode, cmd := potreeArgs bp ip od pr,
              output := String.intercalate "\n" res.outputLines }) := by
  have hconv : potree_convert bp ip od pr res = Except.error
      { returncode := res.returncode, cmd := potreeArgs bp ip od pr,
        output := String.intercalate "\n" res.outputLines } := by
    unfold potree_convert
    rw [if_pos h]
  refine ⟨hconv, ?_, ?_⟩
  · unfold runPCTool
    rw [hconv]
    exact runPC_convFail_status _
  · unfold runPCTool
    rw [hconv]
    exact runPC_convFail_error _

/-- Witness for `potree_nonzero_exit_marks_failed` at a concrete failing
tool result. -/
theorem potree_nonzero_exit_marks_failed_witness :
    finalStatus
      (runPCTool { returncode := 2, outputLines := ["boom"] } "a" "b" "c" "d")
      "j1" = some Status.failed :=
  (potree_nonzero_exit_marks_failed
    { returncode := 2, outputLines := ["boom"] } "a" "b" "c" "d"
    (by decide)).2.1

/-- Claim C8 (amended). For every job, output directory, error message and
starting state: the cancellation handler and the hard-failure handler leave
identical blob stores and (up to the failure path's separate output-
directory removal, included in both here) identical local scratch files —
each deletes the local temp file and the remote scratch blob and neither
deletes any derived artifact under the parent's prefix, since the
cancellation path's prefix-deletion block dies on the missing `list_blobs`
method; the two paths differ only in the terminal status they write
(`cancelled` vs `failed`) and the message fields attached to that write. -/
theorem cleanup_actions_equivalence (j : Job) (od : Option String)
    (m : String) (s : WState) :
    (handle_cancellation j od s).blobs = (handle_pc_failure j m od s).blobs
    ∧ (handle_cancellation j od s).localFiles
        = (handle_pc_failure j m od s).localFiles
    ∧ (cleanup_cancelled_job j od s).blobs = (cleanup_temp_files j s).blobs
    ∧ (handle_cancellation j od s).statusHist
        = s.statusHist ++ [Status.cancelled]
    ∧ (handle_pc_failure j m od s).statusHist
        = s.statusHist ++ [Status.failed] := by
  unfold handle_cancellation handle_pc_failure cleanup_cancelled_job
    cleanup_temp_files mark_failed writeStatus deletePartialOutputs
  cases j.file_path <;> cases j.azure_path <;> cases od <;> simp

/-- Updating the matching document of a collection through a map that
preserves ids commutes with `find_one` by id. -/
theorem findJob_map_update (db : List Job) (id : String) (f : Job → Job)
    (hf : ∀ j, (f j).id = j.id) :
    findJob (db.map (fun x => if x.id == id then f x else x)) id
      = (findJob db id).map f := by
  induction db with
  | nil => rfl
  | cons x xs ih =>
      cases hx : x.id == id with
      | true =>
          have hfx : ((f x).id == id) = true := by rw [hf]; exact hx
          simp [findJob, List.find?, hx, hfx]
      | false =>
          have hfx : ((f x).id == id) = false := by rw [hf]; exact hx
          simp only [findJob, List.map_cons, hx, if_false, Bool.false_eq_true,
            ite_false, List.find?, hfx] at ih ⊢
          exact ih

/-- The route rejects any job whose stored status is `cancelled` with a 409
conflict and leaves the collection untouched. -/
theorem cancel_already_cancelled_conflict (db : List Job) (id : String)
    (t : Nat) (j : Job) (hfind : findJob db id = some j)
    (hst : j.status = Status.cancelled) :
    cancelRoute db id t = (RouteResult.err 409 "Job already cancelled", db) := by
  unfold cancelRoute
  rw [hfind]
  simp [hst]

/-- Claim C4 (amended). After any successful cancellation through the
route, cancelling the same job again is rejected — not accepted as a
non-error no-op: the second call returns the 409 conflict
"Job already cancelled", and every field of every job record is unchanged
from its value after the first cancellation (the route errors out before
any store write). -/
theorem second_cancel_conflict_and_unchanged (db : List Job) (id : String)
    (t1 t2 : Nat) (p : String) (prev : Status) (db1 : List Job)
    (h : cancelRoute db id t1 = (RouteResult.ok id p prev t1, db1)) :
    cancelRoute db1 id t2
      = (RouteResult.err 409 "Job already cancelled", db1) := by
  cases hfind : findJob db id with
  | none =>
      unfold cancelRoute at h
      rw [hfind] at h
      simp at h
  | some j =>
      unfold cancelRoute at h
      rw [hfind] at h
      by_cases h1 : j.status = Status.completed
      · simp [h1] at h
      · by_cases h2 : j.status = Status.failed
        · simp [h1, h2] at h
        · by_cases h3 : j.status = Status.cancelled
          · simp [h1, h2, h3] at h
          · simp only [if_neg h1, if_neg h2, if_neg h3] at h
            have hc : cancel_job db id t1 =
                (decide ((db.map fun x =>
                    if x.id == id then applyCancel t1 x else x) ≠ db),
                 db.map fun x => if x.id == id then applyCancel t1 x else x) := by
              unfold cancel_job
              rw [hfind]
            rw [hc] at h
            generalize hmd :
              (db.map fun x => if x.id == id then applyCancel t1 x else x)
                = md at h
            cases hdec : decide (md ≠ db) with
            | false => rw [hdec] at h; simp at h
            | true =>
                rw [hdec] at h
                simp only [Prod.mk.injEq, RouteResult.ok.injEq] at h
                have hdb1 : md = db1 := h.2
                have hfind1 : findJob db1 id = some (applyCancel t1 j) := by
                  rw [← hdb1, ← hmd,
                    findJob_map_update db id (applyCancel t1) (fun _ => rfl),
                    hfind]
                  rfl
                exact cancel_already_cancelled_conflict db1 id t2
                  (applyCancel t1 j) hfind1 rfl

/-- Witness for `second_cancel_conflict_and_unchanged`: cancel the concrete
pending job `jw`, then cancel it again. -/
theorem second_cancel_conflict_witness :
    cancelRoute [applyCancel 5 demoPend] "jw" 6
      = (RouteResult.err 409 "Job already cancelled", [applyCancel 5 demoPend]) :=
  second_cancel_conflict_and_unchanged [demoPend] "jw" 5 6 "p1" Status.pending
    [applyCancel 5 demoPend] (by decide)


/-- Invariant of the selection scan behind `get_next_job`: an empty result
means neither the accumulator nor the remaining list holds a pending job,
and a returned job is pending, comes from the accumulator or the list, and
has `created_at` no later than any pending job of the list or the
accumulator. -/
theorem oldestPendingAux_spec (l : List Job) :
    ∀ acc : Option Job, (∀ b, acc = some b → b.status = Status.pending) →
      ((oldestPendingAux acc l = none →
          acc = none ∧ ∀ j ∈ l, j.status ≠ Status.pending)
      ∧ (∀ r, oldestPendingAux acc l = some r →
          r.status = Status.pending
          ∧ (acc = some r ∨ r ∈ l)
          ∧ (∀ j ∈ l, j.status = Status.pending → r.created_at ≤ j.created_at)
          ∧ (∀ b, acc = some b → r.created_at ≤ b.created_at))) := by
  induction l with
  | nil =>
      intro acc hacc
      have he : oldestPendingAux acc [] = acc := rfl
      rw [he]
      constructor
      · intro h
        refine ⟨h, ?_⟩
        intro j hj
        cases hj
      · intro r hr
        refine ⟨hacc r hr, Or.inl hr, ?_, ?_⟩
        · intro j hj
          cases hj
        · intro b hb
          rw [hr] at hb
          cases hb
          exact le_refl _
  | cons x xs ih =>
      intro acc hacc
      by_cases hx : x.status = Status.pending
      · cases acc with
        | none =>
            have hstep : oldestPendingAux none (x :: xs)
                = oldestPendingAux (some x) xs := by
              show (if x.status = Status.pending then oldestPendingAux (some x) xs
                    else oldestPendingAux none xs) = oldestPendingAux (some x) xs
              rw [if_pos hx]
            have ih' := ih (some x) (by intro b hb; cases hb; exact hx)
            constructor
            · intro h
              rw [hstep] at h
              cases (ih'.1 h).1
            · intro r hr
              rw [hstep] at hr
              rcases ih'.2 r hr with ⟨hp, hmem, hmin, hbnd⟩
              refine ⟨hp, ?_, ?_, ?_⟩
              · rcases hmem with h1 | h2
                · cases h1
                  exact Or.inr (List.mem_cons_self _ _)
                · exact Or.inr (List.mem_cons_of_mem _ h2)
              · intro j hj hjp
                rcases List.mem_cons.mp hj with rfl | hj'
                · exact hbnd j rfl
                · exact hmin j hj' hjp
              · intro b hb
                cases hb
        | some b =>
            have hstep : oldestPendingAux (some b) (x :: xs)
                = oldestPendingAux
                    (some (if x.created_at < b.created_at then x else b)) xs := by
              show (if x.status = Status.pending then
                      oldestPendingAux
                        (some (if x.created_at < b.created_at then x else b)) xs
                    else oldestPendingAux (some b) xs)
                  = oldestPendingAux
                      (some (if x.created_at < b.created_at then x else b)) xs
              rw [if_pos hx]
            have hbp : b.status = Status.pending := hacc b rfl
            have hmp : (if x.created_at < b.created_at then x else b).status
                = Status.pending := by
              by_cases hlt : x.created_at < b.created_at
              · rw [if_pos hlt]; exact hx
              · rw [if_neg hlt]; exact hbp
            have hmx : (if x.created_at < b.created_at then x else b).created_at
                ≤ x.created_at := by
              by_cases hlt : x.created_at < b.created_at
              · rw [if_pos hlt]
              · rw [if_neg hlt]; exact Nat.le_of_not_lt hlt
            have hmb : (if x.created_at < b.created_at then x else b).created_at
                ≤ b.created_at := by
              by_cases hlt : x.created_at < b.created_at
              · rw [if_pos hlt]; exact Nat.le_of_lt hlt
              · rw [if_neg hlt]
            have ih' := ih (some (if x.created_at < b.created_at then x else b))
              (by intro c hc; cases hc; exact hmp)
            constructor
            · intro h
              rw [hstep] at h
              cases (ih'.1 h).1
            · intro r hr
              rw [hstep] at hr
              rcases ih'.2 r hr with ⟨hp, hmem, hmin, hbnd⟩
              have hrm : r.created_at
                  ≤ (if x.created_at < b.created_at then x else b).created_at :=
                hbnd _ rfl
              refine ⟨hp, ?_, ?_, ?_⟩
              · rcases hmem with h1 | h2
                · by_cases hlt : x.created_at < b.created_at
                  · rw [if_pos hlt] at h1
                    cases h1
                    exact Or.inr (List.mem_cons_self _ _)
                  · rw [if_neg hlt] at h1
                    cases h1
                    exact Or.inl rfl
                · exact Or.inr (List.mem_cons_of_mem _ h2)
              · intro j hj hjp
                rcases List.mem_cons.mp hj with rfl | hj'
                · exact le_trans hrm hmx
                · exact hmin j hj' hjp
              · intro c hc
                cases hc
                exact le_trans hrm hmb
      · have hstep : oldestPendingAux acc (x :: xs) = oldestPendingAux acc xs := by
          cases acc with
          | none =>
              show (if x.status = Status.pending then oldestPendingAux (some x) xs
                    else oldestPendingAux none xs) = oldestPendingAux none xs
              rw [if_neg hx]
          | some b =>
              show (if x.status = Status.pending then
                      oldestPendingAux
                        (some (if x.created_at < b.created_at then x else b)) xs
                    else oldestPendingAux (some b) xs)
                  = oldestPendingAux (some b) xs
              rw [if_neg hx]
        have ih' := ih acc hacc
        constructor
        · intro h
          rw [hstep] at h
          rcases ih'.1 h with ⟨h1, h2⟩
          refine ⟨h1, ?_⟩
          intro j hj
          rcases List.mem_cons.mp hj with rfl | hj'
          · exact hx
          · exact h2 j hj'
        · intro r hr
          rw [hstep] at hr
          rcases ih'.2 r hr with ⟨hp, hmem, hmin, hbnd⟩
          refine ⟨hp, ?_, ?_, hbnd⟩
          · rcases hmem with h1 | h2
            · exact Or.inl h1
            · exact Or.inr (List.mem_cons_of_mem _ h2)
          · intro j hj hjp
            rcases List.mem_cons.mp hj with rfl | hj'
            · exact absurd hjp hx
            · exact hmin j hj' hjp

end CloudViewer
namespace CloudViewer

/-- Claim C5. Each `get_next_job` call returns `none` exactly when no
pending job exists; otherwise it picks a pending job whose `created_at` is
no later than that of any pending job (FIFO), and in the same single state
transformation sets its status to `processing`, refreshes `updated_at`,
stores that document back, and returns exactly the updated document (which
is a member of the updated collection). -/
theorem get_next_job_correct (db : List Job) (now : Nat) :
    ((get_next_job db now).1 = none ↔ ∀ j ∈ db, j.status ≠ Status.pending)
    ∧ (∀ j2, (get_next_job db now).1 = some j2 →
        j2.status = Status.processing ∧ j2.updated_at = now ∧
        ∃ j, j ∈ db ∧ j.status = Status.pending
          ∧ j2 = { j with status := Status.processing, updated_at := now }
          ∧ (∀ p ∈ db, p.status = Status.pending → j.created_at ≤ p.created_at)
          ∧ (get_next_job db now).2
              = db.map (fun x => if x.id == j.id then j2 else x)
          ∧ j2 ∈ (get_next_job db now).2) := by
  have hspec := oldestPendingAux_spec db none (by intro b hb; cases hb)
  constructor
  · constructor
    · intro h
      cases hop : oldestPending db with
      | none => exact ((hspec.1 hop).2)
      | some j =>
          unfold get_next_job at h
          rw [hop] at h
          cases h
    · intro hall
      cases hop : oldestPending db with
      | none =>
          unfold get_next_job
          rw [hop]
      | some j =>
          rcases hspec.2 j hop with ⟨hp, hmem, _, _⟩
          rcases hmem with h1 | h2
          · cases h1
          · exact absurd hp (hall j h2)
  · intro j2 hj2
    cases hop : oldestPending db with
    | none =>
        unfold get_next_job at hj2
        rw [hop] at hj2
        cases hj2
    | some j =>
        unfold get_next_job at hj2
        rw [hop] at hj2
        have hj2' : ({ j with status := Status.processing, updated_at := now } : Job)
            = j2 := by
          cases hj2
          rfl
        rcases hspec.2 j hop with ⟨hp, hmem, hmin, _⟩
        have hjmem : j ∈ db := by
          rcases hmem with h1 | h2
          · cases h1
          · exact h2
        have hsnd : (get_next_job db now).2
            = db.map (fun x => if x.id == j.id then
                ({ j with status := Status.processing, updated_at := now } : Job)
                else x) := by
          unfold get_next_job
          rw [hop]
        refine ⟨?_, ?_, j, hjmem, hp, hj2'.symm, hmin, ?_, ?_⟩
        · rw [← hj2']
        · rw [← hj2']
        · rw [hsnd, hj2']
        · rw [hsnd, hj2']
          have hm := List.mem_map_of_mem
            (fun x => if x.id == j.id then j2 else x) hjmem
          simp only [beq_self_eq_true, ite_true] at hm
          exact hm

/-- Witness for `get_next_job_correct` on a concrete queue: the oldest
pending job `demoB` is claimed and returned with status `processing`. -/
theorem get_next_job_correct_witness :
    (get_next_job demoQueue 9).1 = some demoClaimed
    ∧ demoClaimed.status = Status.processing
    ∧ demoClaimed.updated_at = 9 := by
  refine ⟨by decide, ?_, ?_⟩
  · exact ((get_next_job_correct demoQueue 9).2 demoClaimed (by decide)).1
  · exact ((get_next_job_correct demoQueue 9).2 demoClaimed (by decide)).2.1

end CloudViewer
